import Mathlib

/-!
Verification of the file-importer program (`src/import.go`, the concurrent
variant with EXIF offset handling, plus its copy tests).

The development shallowly embeds the program's data and operations:

* `GoTime` models a Go `time.Time` as wall-clock fields plus a fixed zone
  offset (seconds east of UTC); `GoTime.instant` is the absolute second
  count since January 1 of year 1 (proleptic Gregorian, as Go computes it),
  and `GoTime.isZero` models `Time.IsZero`.
* `parseDateFields`, `parseTZ`, `goParseLayout`, `goParseInLocation` and
  `goParseWithOffset` model Go's `time.Parse` / `time.ParseInLocation` for
  the two layouts the program uses: `"2006:01:02 15:04:05"` and that layout
  extended with `"-07:00"`.  Go parses the `15` hour element as one or two
  digits, every other numeric element as exactly two (year: exactly four),
  and the `-07:00` element as exactly six characters `[+-]HH:MM`.
* The EXIF side (`Ifd`, `findTagInAllIfds`, `lookupStrings`,
  `resolveTimestamp`) embeds `findTagInAllIfds` and the worker's timestamp
  resolution chain (import.go lines 404-463).
* A small flat filesystem model carries `copyFile` / `copyFileContents`
  (import.go lines 262-316) and the worker's filter/folder/copy step.
* `PoolState` / `PoolStep` model the synchronization skeleton of the
  dispatch loop (guard channel of capacity 10 plus WaitGroup).
-/

namespace FileImporter

/-! ### Go time values -/

/-- A Go `time.Time` restricted to what the program observes: wall-clock
fields and a fixed zone offset in seconds east of UTC.  Nanoseconds are
always zero in this program (EXIF strings and `Chtimes` arguments carry
whole seconds), so they are omitted. -/
structure GoTime where
  year : Nat
  month : Nat
  day : Nat
  hour : Nat
  minute : Nat
  second : Nat
  off : Int
  deriving DecidableEq, Repr

/-- Go's `isLeap`: proleptic Gregorian leap-year rule. -/
def isLeap (y : Nat) : Bool :=
  (y % 4 == 0 && y % 100 != 0) || y % 400 == 0

/-- Days in the months strictly before month `m` of a (non-)leap year. -/
def daysBeforeMonth (leap : Bool) (m : Nat) : Nat :=
  let base :=
    match m with
    | 0 => 0 | 1 => 0 | 2 => 31 | 3 => 59 | 4 => 90 | 5 => 120 | 6 => 151
    | 7 => 181 | 8 => 212 | 9 => 243 | 10 => 273 | 11 => 304 | _ => 334
  if leap && decide (3 ≤ m) then base + 1 else base

/-- Go's `daysIn(month, year)` used by `time.Parse` to range-check days. -/
def daysInMonth (y m : Nat) : Nat :=
  match m with
  | 1 => 31 | 3 => 31 | 5 => 31 | 7 => 31 | 8 => 31 | 10 => 31 | 12 => 31
  | 4 => 30 | 6 => 30 | 9 => 30 | 11 => 30
  | 2 => if isLeap y then 29 else 28
  | _ => 0

/-- Days of the proleptic Gregorian calendar from 0001-01-01 to `y-m-d`
(the date Go's zero `time.Time` lives on).  Floor division keeps the
formula correct for year 0, which Go's parser accepts. -/
def daysFromCivil (y m d : Nat) : Int :=
  let yi : Int := (y : Int) - 1
  365 * yi + Int.fdiv yi 4 - Int.fdiv yi 100 + Int.fdiv yi 400
    + (daysBeforeMonth (isLeap y) m : Int) + ((d : Int) - 1)

/-- Absolute second count of a `GoTime` relative to Go's zero time
(0001-01-01 00:00:00 UTC): wall-clock seconds minus the zone offset. -/
def GoTime.instant (t : GoTime) : Int :=
  daysFromCivil t.year t.month t.day * 86400
    + (t.hour : Int) * 3600 + (t.minute : Int) * 60 + (t.second : Int) - t.off

/-- Go's `Time.IsZero`: the instant is exactly the zero time. -/
def GoTime.isZero (t : GoTime) : Bool :=
  t.instant == 0

/-- The zero `time.Time` (what a failed `time.Parse` returns and what
`var timestampValue time.Time` starts as). -/
def zeroTime : GoTime := ⟨1, 1, 1, 0, 0, 0, 0⟩

/-! ### Go `time.Parse` for the program's layouts -/

/-- Numeric value of a decimal digit character. -/
def digitVal (c : Char) : Nat := c.toNat - '0'.toNat

/-- Go's `getnum` with `fixed = true`: exactly two digits. -/
def num2 : List Char → Option (Nat × List Char)
  | a :: b :: rest =>
    if a.isDigit && b.isDigit then some (digitVal a * 10 + digitVal b, rest)
    else none
  | _ => none

/-- Go's `getnum` with `fixed = false` (layout element `15`): one digit,
or two when the second character is also a digit. -/
def num12 : List Char → Option (Nat × List Char)
  | a :: b :: rest =>
    if a.isDigit then
      if b.isDigit then some (digitVal a * 10 + digitVal b, rest)
      else some (digitVal a, b :: rest)
    else none
  | a :: [] => if a.isDigit then some (digitVal a, []) else none
  | [] => none

/-- Layout element `2006`: exactly four digits. -/
def num4 : List Char → Option (Nat × List Char)
  | a :: b :: c :: d :: rest =>
    if a.isDigit && b.isDigit && c.isDigit && d.isDigit then
      some (((digitVal a * 10 + digitVal b) * 10 + digitVal c) * 10 + digitVal d, rest)
    else none
  | _ => none

/-- A literal layout character must match the next input character. -/
def lit (c : Char) : List Char → Option (List Char)
  | x :: rest => if x = c then some rest else none
  | [] => none

/-- The six wall-clock fields in parse order. -/
structure DateFields where
  y : Nat
  mo : Nat
  d : Nat
  h : Nat
  mi : Nat
  s : Nat
  deriving DecidableEq, Repr

/-- Parse of the layout `"2006:01:02 15:04:05"`, including Go's range
checks (hour 0-23, minute/second 0-59, month 1-12, day within month). -/
def parseDateFields (cs : List Char) : Option (DateFields × List Char) := do
  let (y, cs) ← num4 cs
  let cs ← lit ':' cs
  let (mo, cs) ← num2 cs
  let cs ← lit ':' cs
  let (d, cs) ← num2 cs
  let cs ← lit ' ' cs
  let (h, cs) ← num12 cs
  let cs ← lit ':' cs
  let (mi, cs) ← num2 cs
  let cs ← lit ':' cs
  let (s, cs) ← num2 cs
  if h ≤ 23 ∧ mi ≤ 59 ∧ s ≤ 59 ∧ 1 ≤ mo ∧ mo ≤ 12 ∧ 1 ≤ d ∧ d ≤ daysInMonth y mo then
    pure (⟨y, mo, d, h, mi, s⟩, cs)
  else none

/-- Layout element `-07:00`: at least six characters remain, the sign is
`+` or `-`, a colon sits between two-digit hours and minutes.  Returns
the offset in seconds east of UTC. -/
def parseTZ : List Char → Option (Int × List Char)
  | sg :: h1 :: h2 :: cl :: m1 :: m2 :: rest =>
    if (sg = '+' ∨ sg = '-') ∧ cl = ':' ∧
        h1.isDigit ∧ h2.isDigit ∧ m1.isDigit ∧ m2.isDigit then
      let mag : Int :=
        ((digitVal h1 * 10 + digitVal h2) * 60 + (digitVal m1 * 10 + digitVal m2)) * 60
      some (if sg = '-' then -mag else mag, rest)
    else none
  | _ => none

/-- `time.Parse("2006:01:02 15:04:05", s)`: no zone in the layout, so the
result is in UTC (offset 0). -/
def goParseLayout (s : String) : Option GoTime :=
  match parseDateFields s.data with
  | some (f, []) => some ⟨f.y, f.mo, f.d, f.h, f.mi, f.s, 0⟩
  | _ => none

/-- `time.ParseInLocation("2006:01:02 15:04:05", s, time.Local)`.  The
system zone is modelled as a fixed offset `localOff` (seconds east of
UTC) applicable to the parsed date. -/
def goParseInLocation (localOff : Int) (s : String) : Option GoTime :=
  match parseDateFields s.data with
  | some (f, []) => some ⟨f.y, f.mo, f.d, f.h, f.mi, f.s, localOff⟩
  | _ => none

/-- `time.Parse("2006:01:02 15:04:05-07:00", s)`: the date fields, then
the numeric zone, then end of input. -/
def goParseWithOffset (s : String) : Option GoTime :=
  match parseDateFields s.data with
  | some (f, rest) =>
    match parseTZ rest with
    | some (off, []) => some ⟨f.y, f.mo, f.d, f.h, f.mi, f.s, off⟩
    | _ => none
  | none => none

/-! ### EXIF metadata model and `findTagInAllIfds` -/

/-- The dynamic type of what go-exif's `IfdTagEntry.Value()` yields to the
caller: a textual value, a non-textual one (e.g. `[]uint16` for a SHORT
tag), or a decode error.  `findTagInAllIfds` casts the value with
`valueRaw.(string)`, which panics on a non-textual value. -/
inductive TagValue where
  | str (s : String)
  | nonText
  | valueErr
  deriving DecidableEq, Repr

/-- One tag of one IFD: its registered name and its decoded value. -/
structure TagEntry where
  name : String
  val : TagValue
  deriving DecidableEq, Repr

/-- One metadata directory: the list of its tag entries in order. -/
abbrev Ifd := List TagEntry

/-- `Ifd.FindTagWithName` followed by `results[0].Value()`: value of the
first entry carrying `tagName`, if any. -/
def lookupTag (ifd : Ifd) (tagName : String) : Option TagValue :=
  (ifd.find? (fun e => e.name == tagName)).map (fun e => e.val)

/-- Outcome of `findTagInAllIfds`: a string value, the error return
`("", err)` from a failing `Value()`, a Go panic from the unchecked
string cast, or the final `("", "tag not found")` return. -/
inductive TagFind where
  | found (s : String)
  | errored
  | panicked
  | notFound
  deriving DecidableEq, Repr

/-- import.go lines 319-332: walk the IFDs in order; in the first IFD
whose `FindTagWithName` yields results, return `results[0].Value()` cast
to string (an error from `Value()` is returned; a non-string value makes
the cast panic); if no IFD has the tag, report "tag not found". -/
def findTagInAllIfds (ifds : List Ifd) (tagName : String) : TagFind :=
  match ifds with
  | [] => .notFound
  | ifd :: rest =>
    match lookupTag ifd tagName with
    | none => findTagInAllIfds rest tagName
    | some (.str s) => .found s
    | some .valueErr => .errored
    | some .nonText => .panicked

/-! ### The worker's timestamp resolution (import.go lines 404-463) -/

/-- What the worker observes about one file: the collected EXIF IFD index
(`none` when `SearchAndExtractExifWithReader`, `NewIfdMappingWithStandard`
or `Collect` failed — all three leave `dateTimeString` empty and
`dtErr` nil, which is all later control flow looks at), the result of the
`imagemeta.DecodeCR3` fallback (`none` when decoding failed, otherwise
`md.DateTimeOriginal()`, possibly the zero time), and the file's
filesystem modification time. -/
structure FileInput where
  index : Option (List Ifd)
  cr3 : Option GoTime
  modTime : GoTime
  deriving DecidableEq, Repr

/-- Which source produced the resolved timestamp (the spec's provenance
trail, instrumenting the assignment sites of `timestampValue`). -/
inductive Provenance where
  | metadataWithOffset
  | metadataLocal
  | cr3Metadata
  | filesystemMtime
  deriving DecidableEq, Repr

/-- Resolution either yields a timestamp with its provenance, or the
goroutine panics inside `findTagInAllIfds`. -/
inductive ResolveResult where
  | ok (t : GoTime) (p : Provenance)
  | panicked
  deriving DecidableEq, Repr

/-- Result of the three tag lookups: `dateTimeString` and `offsetString`
as the worker leaves them, or a panic.  The worker's later control flow
tests only `dateTimeString == ""` (`dtErr != nil` coincides with it:
every non-`found` lookup leaves the string empty). -/
inductive LookupResult where
  | ok (dateTimeString : String) (offsetString : String)
  | panicked
  deriving DecidableEq, Repr

/-- import.go lines 408-423: look up `DateTimeOriginal`, then
`OffsetTimeOriginal`, and on its failure `OffsetTime` (whose error is
discarded).  Panics propagate in evaluation order. -/
def lookupStrings (index : Option (List Ifd)) : LookupResult :=
  match index with
  | none => .ok "" ""
  | some ifds =>
    match findTagInAllIfds ifds "DateTimeOriginal" with
    | .panicked => .panicked
    | dtFind =>
      let ds := match dtFind with
        | .found s => s
        | _ => ""
      match findTagInAllIfds ifds "OffsetTimeOriginal" with
      | .panicked => .panicked
      | .found s => .ok ds s
      | _ =>
        match findTagInAllIfds ifds "OffsetTime" with
        | .panicked => .panicked
        | .found s2 => .ok ds s2
        | _ => .ok ds ""

/-- import.go lines 404-463, the worker's timestamp resolution: EXIF tag
lookups; CR3 decoder fallback when no EXIF date string; parse with offset
when an offset string is present; local-zone parse when the value is
still the zero time; and final fallback to the file's modification time
when the value is still the zero time.  Each candidate value is paired
with its provenance; the pair only escapes through the final
`IsZero` gate, so a zero-valued candidate's provenance is never
observed. -/
def resolveTimestamp (localOff : Int) (f : FileInput) : ResolveResult :=
  match lookupStrings f.index with
  | .panicked => .panicked
  | .ok dateTimeString offsetString =>
    let s2 : GoTime × Provenance :=
      if dateTimeString == "" then
        match f.cr3 with
        | some t => (t, .cr3Metadata)
        | none => (zeroTime, .cr3Metadata)
      else (zeroTime, .cr3Metadata)
    let s3 : GoTime × Provenance :=
      if s2.1.isZero && dateTimeString != "" then
        let a : GoTime × Provenance :=
          if offsetString != "" then
            match goParseWithOffset (dateTimeString ++ offsetString) with
            | some t => (t, .metadataWithOffset)
            | none => (zeroTime, .metadataWithOffset)
          else s2
        if a.1.isZero then
          match goParseInLocation localOff dateTimeString with
          | some t => (t, .metadataLocal)
          | none => (zeroTime, .metadataLocal)
        else a
      else s2
    if s3.1.isZero then .ok f.modTime .filesystemMtime
    else .ok s3.1 s3.2

/-! ### Extension and folder naming (import.go lines 373-374, 388, 471-472) -/

/-- Suffix of a plain file name starting at its last dot (inclusive), or
empty when no dot occurs: `filepath.Ext` for names without separators,
which is what `f.Name()` yields. -/
def lastExtAux : List Char → List Char
  | [] => []
  | c :: rest =>
    let e := lastExtAux rest
    if e.isEmpty then (if c = '.' then c :: rest else []) else e

/-- `filepath.Ext(name)` for a base name. -/
def filepathExt (name : String) : String :=
  String.mk (lastExtAux name.data)

/-- `strings.Trim(s, ".")`: strip leading and trailing dots. -/
def trimDots (s : String) : String :=
  String.mk (((s.data.dropWhile (fun c => c == '.')).reverse.dropWhile
    (fun c => c == '.')).reverse)

/-- The `ext` variable of the dispatch loop:
`strings.Trim(filepath.Ext(f.Name()), ".")`. -/
def extOf (name : String) : String :=
  trimDots (filepathExt name)

/-- import.go line 374: the entry survives the extension filter iff the
filter is unset or matches the trimmed extension exactly. -/
def passesFilter (filter name : String) : Bool :=
  filter == "" || extOf name == filter

/-- `strings.ToLower` (per-character; all extensions here are ASCII). -/
def lowerStr (s : String) : String :=
  String.mk (s.data.map Char.toLower)

/-- `timestampValue.Format("2006-01-02")`: zero-padded date. -/
def pad (w n : Nat) : String :=
  let s := toString n
  if s.length < w then String.mk (List.replicate (w - s.length) '0') ++ s else s

/-- Go layout `2006-01-02` of a `GoTime`'s wall clock. -/
def formatDate (t : GoTime) : String :=
  pad 4 t.year ++ "-" ++ pad 2 t.month ++ "-" ++ pad 2 t.day

/-- import.go line 472: destination folder
`filepath.Join(to, timestamp+"-"+strings.ToLower(ext))`, with `Join`
modelled as `/`-concatenation (no dot segments occur). -/
def folderFor (toDir : String) (t : GoTime) (ext : String) : String :=
  toDir ++ "/" ++ (formatDate t ++ "-" ++ lowerStr ext)

/-- import.go line 465: `strconv.Atoi(timestampValue.Format("20060102"))`.
For the years Go's parser produces (0-9999, zero-padded to four digits)
the digit string reads back as `year*10000 + month*100 + day`. -/
def dateKey (t : GoTime) : Nat :=
  t.year * 10000 + t.month * 100 + t.day

/-! ### Flat filesystem model and the file copier (import.go 262-316) -/

/-- A filesystem entry: byte content, modification time, and whether it
is a regular file (directories, symlinks, devices are non-regular). -/
structure GoFile where
  content : String
  mtime : GoTime
  regular : Bool
  deriving DecidableEq, Repr

/-- A flat namespace of paths.  Later bindings shadow earlier ones, so
update is cons. -/
abbrev FSm := List (String × GoFile)

/-- Look a path up (first binding wins). -/
def fsGet (fs : FSm) (p : String) : Option GoFile :=
  (fs.find? (fun e => e.1 == p)).map (fun e => e.2)

/-- Bind a path to a file. -/
def fsSet (fs : FSm) (p : String) (f : GoFile) : FSm :=
  (p, f) :: fs

/-- The failure exits of `copyFile` / `copyFileContents`. -/
inductive CopyErr where
  | statSrc
  | nonRegularSrc
  | nonRegularDst
  | openSrc
  | createDst
  | readSrc
  deriving DecidableEq, Repr

/-- import.go lines 290-316 `copyFileContents`: open the source, create
(or truncate) the destination, stream the bytes, then `Chtimes(dst, now,
mtime)` and sync.  The truncation happens before the read, so copying a
file onto itself empties it, as in Go.  I/O that cannot fail in the flat
model (write, sync, close) is modelled as succeeding.  `copyStream` is the part
after the successful `os.Create`: the destination is already truncated
when `io.Copy` reads the source, so copying a file onto itself empties
it, as in Go; a read failure on a non-regular source aborts; then
`Chtimes(dst, now, mtime)` sets the requested modification time. -/
def copyStream (src dst : String) (mtime now : GoTime) (fs : FSm) :
    Except CopyErr FSm :=
  match fsGet (fsSet fs dst ⟨"", now, true⟩) src with
  | none => .error .readSrc
  | some s1 =>
    if !s1.regular then .error .readSrc
    else .ok (fsSet (fsSet fs dst ⟨"", now, true⟩) dst ⟨s1.content, mtime, true⟩)

def copyFileContents (src dst : String) (mtime now : GoTime) (fs : FSm) :
    Except CopyErr FSm :=
  match fsGet fs src with
  | none => .error .openSrc
  | some _ =>
    match fsGet fs dst with
    | some d =>
      if !d.regular then .error .createDst
      else copyStream src dst mtime now fs
    | none => copyStream src dst mtime now fs

/-- import.go lines 262-286 `copyFile`: stat the source and reject
non-regular sources; stat the destination, reject a non-regular
destination and no-op when both stats name the same file (path equality
in the flat model); otherwise copy contents with the SOURCE's
modification time. -/
def copyFile (src dst : String) (now : GoTime) (fs : FSm) :
    Except CopyErr FSm :=
  match fsGet fs src with
  | none => .error .statSrc
  | some sfi =>
    if !sfi.regular then .error .nonRegularSrc
    else
      match fsGet fs dst with
      | some dfi =>
        if !dfi.regular then .error .nonRegularDst
        else if src == dst then .ok fs
        else copyFileContents src dst sfi.mtime now fs
      | none => copyFileContents src dst sfi.mtime now fs

/-! ### The worker after resolution (import.go lines 396-486) -/

/-- How one worker ends: a panic out of the resolver, a failed open of
the source, a skip by the date-range filter, a failed copy, or a
successful copy of the file to its dated folder. -/
inductive WorkerOutcome where
  | panicked
  | openFailed
  | skippedRange
  | copyFailed (e : CopyErr)
  | copied (dstPath : String) (fs : FSm)
  deriving DecidableEq, Repr

/-- One worker body: open the source (its metadata view is `inp`),
resolve the timestamp, compare the 8-digit date key against the
inclusive `[startD, endD]` range (skip silently outside), build the
dated folder name, and invoke the file copier.  `MkdirAll` never fails
in the flat model (and treats an existing directory as success). -/
def workerRun (localOff : Int) (startD endD : Nat) (fromDir toDir name : String)
    (inp : FileInput) (now : GoTime) (fs : FSm) : WorkerOutcome :=
  let srcPath := fromDir ++ "/" ++ name
  match fsGet fs srcPath with
  | none => .openFailed
  | some _ =>
    match resolveTimestamp localOff inp with
    | .panicked => .panicked
    | .ok t _ =>
      let key := dateKey t
      if key < startD ∨ endD < key then .skippedRange
      else
        let dstPath := folderFor toDir t (extOf name) ++ "/" ++ name
        match copyFile srcPath dstPath now fs with
        | .error e => .copyFailed e
        | .ok fs2 => .copied dstPath fs2

/-! ### The bounded worker pool (import.go lines 360-394, 489) -/

/-- import.go line 363: `const maxGoroutines = 10`. -/
def maxGoroutines : Nat := 10

/-- Phase counts of the dispatched tasks: not yet dispatched; slot
acquired by the dispatcher but goroutine not yet started; goroutine body
running; slot released (first deferred call) but `wg.Done` not yet run;
fully done. -/
structure PoolState where
  pending : Nat
  held : Nat
  running : Nat
  released : Nat
  done : Nat
  deriving DecidableEq, Repr

/-- The synchronization skeleton of the dispatch loop: `wg.Add(1)`
followed by a send on the capacity-10 `guard` channel (blocking while
the channel is full, i.e. while `held + running = maxGoroutines`), then
the goroutine start; on completion the deferred receive frees the slot
first and `wg.Done` runs second (deferred calls run last-in first-out).
Any interleaving of these events is allowed. -/
inductive PoolStep : PoolState → PoolState → Prop
  | dispatch (s : PoolState) (h1 : 0 < s.pending)
      (h2 : s.held + s.running < maxGoroutines) :
      PoolStep s ⟨s.pending - 1, s.held + 1, s.running, s.released, s.done⟩
  | goStart (s : PoolState) (h : 0 < s.held) :
      PoolStep s ⟨s.pending, s.held - 1, s.running + 1, s.released, s.done⟩
  | slotFree (s : PoolState) (h : 0 < s.running) :
      PoolStep s ⟨s.pending, s.held, s.running - 1, s.released + 1, s.done⟩
  | wgDone (s : PoolState) (h : 0 < s.released) :
      PoolStep s ⟨s.pending, s.held, s.running, s.released - 1, s.done + 1⟩

/-- The initial state of a run over `n` eligible candidates. -/
def initPool (n : Nat) : PoolState := ⟨n, 0, 0, 0, 0⟩

/-- States a run over `n` candidates can reach. -/
inductive PoolReachable (n : Nat) : PoolState → Prop
  | init : PoolReachable n (initPool n)
  | step {s s' : PoolState} : PoolReachable n s → PoolStep s s' →
      PoolReachable n s'

/-- The WaitGroup counter: incremented at dispatch, decremented by
`wg.Done`, hence the tasks in the held, running or released phases. -/
def wgCount (s : PoolState) : Nat :=
  s.held + s.running + s.released

/-! ### Filesystem lemmas -/

theorem fsGet_set_self (fs : FSm) (p : String) (f : GoFile) :
    fsGet (fsSet fs p f) p = some f := by
  simp [fsGet, fsSet, List.find?]

theorem fsGet_set_ne (fs : FSm) (p q : String) (f : GoFile) (h : q ≠ p) :
    fsGet (fsSet fs p f) q = fsGet fs q := by
  have hb : (p == q) = false := by
    simp [beq_eq_false_iff_ne]
    exact fun he => h he.symm
  simp [fsGet, fsSet, List.find?, hb]

/-- Successful `copyFileContents` runs all end the same way: the (post
truncation) source file `s1` was regular, and the final filesystem binds
the destination to `s1`'s content with the requested mtime. -/
theorem copyStream_ok (src dst : String) (m now : GoTime) (fs fs' : FSm)
    (h : copyStream src dst m now fs = .ok fs') :
    ∃ s1, fsGet (fsSet fs dst ⟨"", now, true⟩) src = some s1 ∧
      s1.regular = true ∧
      fs' = fsSet (fsSet fs dst ⟨"", now, true⟩) dst ⟨s1.content, m, true⟩ := by
  unfold copyStream at h
  split at h
  · exact absurd h (by simp)
  · rename_i s1 hs1
    split at h
    · exact absurd h (by simp)
    · rename_i hreg
      refine ⟨s1, hs1, by simpa using hreg, ?_⟩
      injection h with h'
      exact h'.symm

theorem copyFileContents_ok (src dst : String) (m now : GoTime) (fs fs' : FSm)
    (h : copyFileContents src dst m now fs = .ok fs') :
    ∃ s1, fsGet (fsSet fs dst ⟨"", now, true⟩) src = some s1 ∧
      s1.regular = true ∧
      fs' = fsSet (fsSet fs dst ⟨"", now, true⟩) dst ⟨s1.content, m, true⟩ := by
  unfold copyFileContents at h
  split at h
  · exact absurd h (by simp)
  · split at h
    · split at h
      · exact absurd h (by simp)
      · exact copyStream_ok src dst m now fs fs' h
    · exact copyStream_ok src dst m now fs fs' h

/-- A successful `copyFile` is either the same-file no-op or a successful
`copyFileContents` with the source's modification time. -/
theorem copyFile_ok (src dst : String) (now : GoTime) (fs fs' : FSm)
    (sfi : GoFile) (h0 : fsGet fs src = some sfi)
    (h : copyFile src dst now fs = .ok fs') :
    (src = dst ∧ fs' = fs) ∨
      copyFileContents src dst sfi.mtime now fs = .ok fs' := by
  unfold copyFile at h
  rw [h0] at h
  split at h
  · rename_i heq
    exact absurd heq (by simp)
  · rename_i s1 heq
    injection heq with heq'
    subst heq'
    split at h
    · exact absurd h (by simp)
    · split at h
      · split at h
        · exact absurd h (by simp)
        · split at h
          · rename_i hsd
            injection h with h'
            exact Or.inl ⟨by simpa using hsd, h'.symm⟩
          · exact Or.inr h
      · exact Or.inr h

/-- A resolution that reports provenance `filesystemMtime` carries exactly
the file's modification time: in `resolveTimestamp` only the final
fallback branch produces that provenance. -/
theorem resolve_fsmtime (localOff : Int) (f : FileInput) (t : GoTime)
    (h : resolveTimestamp localOff f = .ok t .filesystemMtime) :
    t = f.modTime := by
  unfold resolveTimestamp at h
  split at h
  · exact absurd h (by simp)
  · dsimp only at h
    iterate 8 (all_goals (try (split at h)))
    all_goals simp_all

/-! ### Claim theorems -/

/-- C6: for every (source, destination) pair where the source is a
regular file and the copy succeeds, the destination's byte content
equals the source's byte content and the destination's modification
time equals the requested modification time (exact in the model; the
spec allows filesystem timestamp resolution).  When source and
destination are distinct paths the source is untouched, so the content
copied is the source's original content; on the same path the contents
are equal in the resulting filesystem (Go truncates before reading). -/
theorem c6_copy_content_and_mtime (src dst : String) (m now : GoTime)
    (fs fs' : FSm) (sf : GoFile)
    (h1 : fsGet fs src = some sf) (h2 : sf.regular = true)
    (h3 : copyFileContents src dst m now fs = .ok fs') :
    ∃ df, fsGet fs' dst = some df ∧ df.mtime = m ∧
      ∃ sf', fsGet fs' src = some sf' ∧ df.content = sf'.content ∧
        (src ≠ dst → sf' = sf ∧ fsGet fs' src = fsGet fs src) := by
  obtain ⟨s1, hs1, hreg, rfl⟩ := copyFileContents_ok src dst m now fs fs' h3
  by_cases hsd : src = dst
  · subst hsd
    refine ⟨⟨s1.content, m, true⟩, fsGet_set_self _ _ _, rfl,
      ⟨s1.content, m, true⟩, fsGet_set_self _ _ _, rfl, fun hne => absurd rfl hne⟩
  · have hdst : fsGet (fsSet (fsSet fs dst ⟨"", now, true⟩) dst
        ⟨s1.content, m, true⟩) dst = some ⟨s1.content, m, true⟩ :=
      fsGet_set_self _ _ _
    have hsrc1 : fsGet (fsSet fs dst ⟨"", now, true⟩) src = fsGet fs src :=
      fsGet_set_ne _ _ _ _ hsd
    have hs1' : s1 = sf := by
      rw [hsrc1, h1] at hs1
      injection hs1 with h'
      exact h'.symm
    have hsrc2 : fsGet (fsSet (fsSet fs dst ⟨"", now, true⟩) dst
        ⟨s1.content, m, true⟩) src = fsGet fs src := by
      rw [fsGet_set_ne _ _ _ _ hsd, hsrc1]
    refine ⟨⟨s1.content, m, true⟩, hdst, rfl, sf, by rw [hsrc2, h1], ?_,
      fun _ => ⟨rfl, hsrc2⟩⟩
    rw [hs1']

/-- Witness for C6 at a concrete copy: `"a" → "b"` of content
`"hello world"` with requested mtime 2021-04-12 13:14:15 UTC. -/
theorem c6_copy_content_and_mtime_witness :
    ∃ df, fsGet [("b", ⟨"hello world", ⟨2021, 4, 12, 13, 14, 15, 0⟩, true⟩),
        ("b", ⟨"", ⟨2023, 1, 1, 0, 0, 0, 0⟩, true⟩),
        ("a", ⟨"hello world", ⟨2020, 7, 8, 9, 10, 11, 0⟩, true⟩)] "b" = some df ∧
      df.mtime = ⟨2021, 4, 12, 13, 14, 15, 0⟩ ∧
      ∃ sf', fsGet [("b", ⟨"hello world", ⟨2021, 4, 12, 13, 14, 15, 0⟩, true⟩),
        ("b", ⟨"", ⟨2023, 1, 1, 0, 0, 0, 0⟩, true⟩),
        ("a", ⟨"hello world", ⟨2020, 7, 8, 9, 10, 11, 0⟩, true⟩)] "a" = some sf' ∧
        df.content = sf'.content ∧
        ("a" ≠ "b" → sf' = ⟨"hello world", ⟨2020, 7, 8, 9, 10, 11, 0⟩, true⟩ ∧
          fsGet [("b", ⟨"hello world", ⟨2021, 4, 12, 13, 14, 15, 0⟩, true⟩),
            ("b", ⟨"", ⟨2023, 1, 1, 0, 0, 0, 0⟩, true⟩),
            ("a", ⟨"hello world", ⟨2020, 7, 8, 9, 10, 11, 0⟩, true⟩)] "a" =
          fsGet [("a", ⟨"hello world", ⟨2020, 7, 8, 9, 10, 11, 0⟩, true⟩)] "a") :=
  c6_copy_content_and_mtime "a" "b" ⟨2021, 4, 12, 13, 14, 15, 0⟩
    ⟨2023, 1, 1, 0, 0, 0, 0⟩
    [("a", ⟨"hello world", ⟨2020, 7, 8, 9, 10, 11, 0⟩, true⟩)] _
    ⟨"hello world", ⟨2020, 7, 8, 9, 10, 11, 0⟩, true⟩ (by decide) (by decide)
    (by rfl)

/-- A source file whose EXIF capture date (2021-04-12) differs from its
filesystem modification time (2022-01-02). -/
def metaVsMtimeInput : FileInput :=
  ⟨some [[⟨"DateTimeOriginal", .str "2021:04:12 13:14:15"⟩]], none,
    ⟨2022, 1, 2, 3, 4, 5, 0⟩⟩

/-- The source directory holding that file. -/
def metaVsMtimeFs : FSm :=
  [("src/a.jpg", ⟨"PAYLOAD", ⟨2022, 1, 2, 3, 4, 5, 0⟩, true⟩)]

/-- The filesystem the worker produces for that file. -/
def metaVsMtimeFsAfter : FSm :=
  [("dst/2021-04-12-jpg/a.jpg", ⟨"PAYLOAD", ⟨2022, 1, 2, 3, 4, 5, 0⟩, true⟩),
   ("dst/2021-04-12-jpg/a.jpg", ⟨"", ⟨2023, 5, 6, 7, 8, 9, 0⟩, true⟩),
   ("src/a.jpg", ⟨"PAYLOAD", ⟨2022, 1, 2, 3, 4, 5, 0⟩, true⟩)]

/-- C1 counterexample: for a file whose timestamp resolves from embedded
metadata (provenance `metadataLocal`, instant 2021-04-12 13:14:15), the
successful copy leaves the destination's modification time equal to the
SOURCE's filesystem mtime (2022-01-02 03:04:05), not to the resolved
instant: `copyFile` passes `sfi.ModTime()` to `copyFileContents`
(import.go line 284), ignoring the worker's `timestampValue`. -/
theorem c1_counterexample :
    workerRun 0 0 99999999 "src" "dst" "a.jpg" metaVsMtimeInput
      ⟨2023, 5, 6, 7, 8, 9, 0⟩ metaVsMtimeFs =
      .copied "dst/2021-04-12-jpg/a.jpg" metaVsMtimeFsAfter ∧
    resolveTimestamp 0 metaVsMtimeInput =
      .ok ⟨2021, 4, 12, 13, 14, 15, 0⟩ .metadataLocal ∧
    fsGet metaVsMtimeFsAfter "dst/2021-04-12-jpg/a.jpg" =
      some ⟨"PAYLOAD", ⟨2022, 1, 2, 3, 4, 5, 0⟩, true⟩ ∧
    (⟨2022, 1, 2, 3, 4, 5, 0⟩ : GoTime) ≠ ⟨2021, 4, 12, 13, 14, 15, 0⟩ := by
  decide

/-- C1 (amended): after a successful copy the destination's modification
time equals the source file's filesystem modification time (`copyFile`
requests `sfi.ModTime()`), so it equals the timestamp the resolver
produced exactly when resolution fell back to filesystem mtime —
provenance `filesystemMtime` implies the resolved value is the
modification time itself. -/
theorem c1_dest_inherits_source_mtime (src dst : String) (now : GoTime)
    (fs fs' : FSm) (sf : GoFile) (localOff : Int) (inp : FileInput)
    (t : GoTime)
    (h1 : fsGet fs src = some sf)
    (h2 : copyFile src dst now fs = .ok fs')
    (h3 : inp.modTime = sf.mtime)
    (h4 : resolveTimestamp localOff inp = .ok t .filesystemMtime) :
    ∃ df, fsGet fs' dst = some df ∧ df.mtime = sf.mtime ∧ df.mtime = t := by
  have ht : t = sf.mtime := by
    rw [resolve_fsmtime localOff inp t h4, h3]
  rcases copyFile_ok src dst now fs fs' sf h1 h2 with ⟨hsd, rfl⟩ | hcc
  · subst hsd
    exact ⟨sf, h1, rfl, ht.symm⟩
  · obtain ⟨s1, _, _, rfl⟩ := copyFileContents_ok src dst sf.mtime now fs fs' hcc
    exact ⟨⟨s1.content, sf.mtime, true⟩, fsGet_set_self _ _ _, rfl, ht.symm⟩

/-- Witness for the amended C1: a file with no metadata resolves to its
modification time, and the copied destination carries exactly that time. -/
theorem c1_dest_inherits_source_mtime_witness :
    ∃ df, fsGet [("b", ⟨"x", ⟨2022, 1, 2, 3, 4, 5, 0⟩, true⟩),
        ("b", ⟨"", ⟨2023, 5, 6, 7, 8, 9, 0⟩, true⟩),
        ("a", ⟨"x", ⟨2022, 1, 2, 3, 4, 5, 0⟩, true⟩)] "b" = some df ∧
      df.mtime = ⟨2022, 1, 2, 3, 4, 5, 0⟩ ∧
      df.mtime = ⟨2022, 1, 2, 3, 4, 5, 0⟩ :=
  c1_dest_inherits_source_mtime "a" "b" ⟨2023, 5, 6, 7, 8, 9, 0⟩
    [("a", ⟨"x", ⟨2022, 1, 2, 3, 4, 5, 0⟩, true⟩)] _
    ⟨"x", ⟨2022, 1, 2, 3, 4, 5, 0⟩, true⟩ 0
    ⟨none, none, ⟨2022, 1, 2, 3, 4, 5, 0⟩⟩ ⟨2022, 1, 2, 3, 4, 5, 0⟩
    (by decide) (by rfl) (by decide) (by decide)

/-! ### Resolver totality (C2) and the unchecked-cast panic (C8) -/

theorem zeroTime_isZero : zeroTime.isZero = true := by decide

/-- No tag entry of any IFD carries a non-textual value (the condition
under which the unchecked `valueRaw.(string)` cast cannot panic). -/
def noNonText (f : FileInput) : Bool :=
  match f.index with
  | none => true
  | some ifds => ifds.all (fun ifd => ifd.all (fun e => e.val != TagValue.nonText))

/-- Tag search over all-textual IFDs never panics. -/
theorem findTag_no_panic (ifds : List Ifd) (tagName : String)
    (h : ∀ ifd ∈ ifds, ∀ e ∈ ifd, e.val ≠ TagValue.nonText) :
    findTagInAllIfds ifds tagName ≠ .panicked := by
  induction ifds with
  | nil => simp [findTagInAllIfds]
  | cons ifd rest ih =>
    simp only [findTagInAllIfds]
    cases hl : lookupTag ifd tagName with
    | none => exact ih (fun i hi => h i (List.mem_cons_of_mem _ hi))
    | some v =>
      cases v with
      | str s => simp
      | valueErr => simp
      | nonText =>
        exfalso
        unfold lookupTag at hl
        cases hf : ifd.find? (fun e => e.name == tagName) with
        | none => rw [hf] at hl; simp at hl
        | some e =>
          rw [hf] at hl
          simp at hl
          exact h ifd (List.mem_cons_self _ _) e (List.mem_of_find?_eq_some hf) hl

/-- Under `noNonText` the lookup phase yields strings. -/
theorem lookupStrings_ok (f : FileInput) (h : noNonText f = true) :
    ∃ ds os, lookupStrings f.index = .ok ds os := by
  cases hidx : f.index with
  | none => exact ⟨"", "", by simp [lookupStrings]⟩
  | some ifds =>
    have hall : ∀ ifd ∈ ifds, ∀ e ∈ ifd, e.val ≠ TagValue.nonText := by
      unfold noNonText at h
      rw [hidx] at h
      simpa [List.all_eq_true] using h
    have h1 := findTag_no_panic ifds "DateTimeOriginal" hall
    have h2 := findTag_no_panic ifds "OffsetTimeOriginal" hall
    have h3 := findTag_no_panic ifds "OffsetTime" hall
    simp only [lookupStrings]
    cases hf1 : findTagInAllIfds ifds "DateTimeOriginal" <;>
      cases hf2 : findTagInAllIfds ifds "OffsetTimeOriginal" <;>
        first
          | (exact absurd hf1 h1)
          | (exact absurd hf2 h2)
          | (exact ⟨_, _, rfl⟩)
          | (cases hf3 : findTagInAllIfds ifds "OffsetTime" <;>
              first
                | (exact absurd hf3 h3)
                | (exact ⟨_, _, rfl⟩))

/-- Both arms of the final fallback gate are `ok` results. -/
theorem exists_ok_ite (b : Bool) (t1 t2 : GoTime) (p1 p2 : Provenance) :
    ∃ t p, (if b = true then ResolveResult.ok t1 p1
      else ResolveResult.ok t2 p2) = .ok t p := by
  cases b <;> simp

/-- C2 (amended): as long as the tag lookups never meet a non-textual
value (otherwise the unchecked string cast panics — see the C8
counterexample), resolution always produces a timestamp; and when no
metadata container is found, or the capture-date string is absent, or
every parsing attempt fails — in each case with no CR3 metadata either —
the result is the file's filesystem modification time with provenance
`filesystemMtime`, no error reaching the caller. -/
theorem c2_resolve_total (localOff : Int) (f : FileInput)
    (hnp : noNonText f = true) :
    (∃ t p, resolveTimestamp localOff f = .ok t p) ∧
    (f.index = none → f.cr3 = none →
      resolveTimestamp localOff f = .ok f.modTime .filesystemMtime) ∧
    (∀ ds os, lookupStrings f.index = .ok ds os → ds = "" → f.cr3 = none →
      resolveTimestamp localOff f = .ok f.modTime .filesystemMtime) ∧
    (∀ ds os, lookupStrings f.index = .ok ds os →
      goParseWithOffset (ds ++ os) = none →
      goParseInLocation localOff ds = none → f.cr3 = none →
      resolveTimestamp localOff f = .ok f.modTime .filesystemMtime) := by
  obtain ⟨ds0, os0, hok0⟩ := lookupStrings_ok f hnp
  refine ⟨?_, ?_, ?_, ?_⟩
  · unfold resolveTimestamp
    rw [hok0]
    dsimp only
    exact exists_ok_ite _ _ _ _ _
  · intro hidx hcr3
    have : lookupStrings f.index = .ok "" "" := by simp [lookupStrings, hidx]
    simp [resolveTimestamp, this, hcr3, zeroTime_isZero]
  · intro ds os hok hds hcr3
    subst hds
    simp [resolveTimestamp, hok, hcr3, zeroTime_isZero]
  · intro ds os hok hoff hloc hcr3
    by_cases hds : ds = ""
    · subst hds
      simp [resolveTimestamp, hok, hcr3, zeroTime_isZero]
    · by_cases hos : os = ""
      · subst hos
        simp [resolveTimestamp, hok, hds, hcr3, hloc, zeroTime_isZero]
      · simp [resolveTimestamp, hok, hds, hos, hcr3, hoff, hloc, zeroTime_isZero]

/-- Witness for the amended C2 at a file with no metadata container. -/
theorem c2_resolve_total_witness :
    (∃ t p, resolveTimestamp 0 ⟨none, none, ⟨2022, 1, 2, 3, 4, 5, 0⟩⟩ = .ok t p) ∧
    ((none : Option (List Ifd)) = none → (none : Option GoTime) = none →
      resolveTimestamp 0 ⟨none, none, ⟨2022, 1, 2, 3, 4, 5, 0⟩⟩ =
        .ok ⟨2022, 1, 2, 3, 4, 5, 0⟩ .filesystemMtime) ∧
    (∀ ds os, lookupStrings none = .ok ds os → ds = "" →
      (none : Option GoTime) = none →
      resolveTimestamp 0 ⟨none, none, ⟨2022, 1, 2, 3, 4, 5, 0⟩⟩ =
        .ok ⟨2022, 1, 2, 3, 4, 5, 0⟩ .filesystemMtime) ∧
    (∀ ds os, lookupStrings none = .ok ds os →
      goParseWithOffset (ds ++ os) = none →
      goParseInLocation 0 ds = none → (none : Option GoTime) = none →
      resolveTimestamp 0 ⟨none, none, ⟨2022, 1, 2, 3, 4, 5, 0⟩⟩ =
        .ok ⟨2022, 1, 2, 3, 4, 5, 0⟩ .filesystemMtime) :=
  c2_resolve_total 0 ⟨none, none, ⟨2022, 1, 2, 3, 4, 5, 0⟩⟩ (by decide)

/-- A file whose EXIF index holds a `DateTimeOriginal` entry with a
non-textual underlying value in its second IFD. -/
def nonTextSecondIfdInput : FileInput :=
  ⟨some [[], [⟨"DateTimeOriginal", .nonText⟩]], none, ⟨2022, 1, 2, 3, 4, 5, 0⟩⟩

/-- C2 counterexample: resolution does NOT always produce a timestamp —
on a capture-date tag with a non-textual value the unchecked
`valueRaw.(string)` cast panics, so no timestamp is produced and the
failure escapes the resolver. -/
theorem c2_counterexample :
    resolveTimestamp 0 nonTextSecondIfdInput = .panicked := by decide

/-- A file whose only IFD holds `DateTimeOriginal` with a non-textual
value (e.g. a malformed EXIF encoding the tag as SHORT). -/
def nonTextTagInput : FileInput :=
  ⟨some [[⟨"DateTimeOriginal", .nonText⟩]], none, ⟨2021, 4, 12, 13, 14, 15, 0⟩⟩

/-- C8: the resolving worker DOES panic on a capture-date tag value whose
underlying type is not textual: `findTagInAllIfds` casts with
`valueRaw.(string)` (import.go line 328) without the two-result form, so
a non-string value crashes the goroutine — contradicting the documented
policy that resolution must never crash the caller and must degrade to a
fallback source. -/
theorem c8_nontextual_tag_panics :
    resolveTimestamp 0 nonTextTagInput = .panicked ∧
    findTagInAllIfds [[⟨"DateTimeOriginal", .nonText⟩]] "DateTimeOriginal" =
      .panicked := by
  decide

/-! ### The capture-date lookup (C3) -/

/-- Remove every entry named `DateTime` from every IFD. -/
def eraseDateTime (ifds : List Ifd) : List Ifd :=
  ifds.map (fun ifd => ifd.filter (fun e => e.name != "DateTime"))

theorem lookupTag_erase (ifd : Ifd) (tagName : String)
    (hn : tagName ≠ "DateTime") :
    lookupTag (ifd.filter (fun e => e.name != "DateTime")) tagName =
      lookupTag ifd tagName := by
  induction ifd with
  | nil => rfl
  | cons e rest ih =>
    unfold lookupTag at *
    by_cases he : e.name = "DateTime"
    · have hm : ¬((fun x : TagEntry => x.name == tagName) e = true) := by
        simp only [he, beq_iff_eq]
        exact fun hh => hn hh.symm
      have hf : ¬((fun x : TagEntry => x.name != "DateTime") e = true) := by
        simp [he]
      rw [List.filter_cons, if_neg hf, @List.find?_cons_of_neg _ _ e rest hm]
      exact ih
    · have hf : (fun x : TagEntry => x.name != "DateTime") e = true := by
        simp [he]
      rw [List.filter_cons, if_pos hf]
      by_cases hm : (fun x : TagEntry => x.name == tagName) e = true
      · rw [@List.find?_cons_of_pos _ _ e (rest.filter _) hm,
          @List.find?_cons_of_pos _ _ e rest hm]
      · rw [@List.find?_cons_of_neg _ _ e (rest.filter _) hm,
          @List.find?_cons_of_neg _ _ e rest hm]
        exact ih

theorem findTag_erase (ifds : List Ifd) (tagName : String)
    (hn : tagName ≠ "DateTime") :
    findTagInAllIfds (eraseDateTime ifds) tagName =
      findTagInAllIfds ifds tagName := by
  induction ifds with
  | nil => rfl
  | cons ifd rest ih =>
    simp only [eraseDateTime, List.map_cons, findTagInAllIfds]
    rw [lookupTag_erase ifd tagName hn]
    cases lookupTag ifd tagName with
    | none => exact ih
    | some v => cases v <;> rfl

theorem lookupStrings_erase (idx : Option (List Ifd)) :
    lookupStrings (idx.map eraseDateTime) = lookupStrings idx := by
  cases idx with
  | none => rfl
  | some ifds =>
    simp only [Option.map_some', lookupStrings,
      findTag_erase ifds "DateTimeOriginal" (by decide),
      findTag_erase ifds "OffsetTimeOriginal" (by decide),
      findTag_erase ifds "OffsetTime" (by decide)]

/-- C3 (amended): the capture-date lookup searches every IFD for
`DateTimeOriginal` — an IFD-prefix without the tag is skipped and the
search continues into the remaining IFDs — but NO generic `DateTime` tag
is ever consulted: deleting every `DateTime` entry from the metadata
leaves resolution unchanged.  (The Original-then-generic preference in
the code applies to the offset tags `OffsetTimeOriginal`/`OffsetTime`,
not to the capture date.) -/
theorem c3_all_ifds_no_generic_datetime (localOff : Int)
    (idx : Option (List Ifd)) (cr3 : Option GoTime) (mt : GoTime)
    (pre post : List Ifd)
    (hpre : ∀ ifd ∈ pre, lookupTag ifd "DateTimeOriginal" = none) :
    resolveTimestamp localOff ⟨idx.map eraseDateTime, cr3, mt⟩ =
      resolveTimestamp localOff ⟨idx, cr3, mt⟩ ∧
    findTagInAllIfds (pre ++ post) "DateTimeOriginal" =
      findTagInAllIfds post "DateTimeOriginal" := by
  constructor
  · unfold resolveTimestamp
    dsimp only
    rw [lookupStrings_erase idx]
  · induction pre with
    | nil => rfl
    | cons ifd rest ih =>
      simp only [List.cons_append, findTagInAllIfds]
      rw [hpre ifd (List.mem_cons_self _ _)]
      exact ih (fun i hi => hpre i (List.mem_cons_of_mem _ hi))

/-- Witness for the amended C3: a `DateTimeOriginal` sitting only in the
second IFD is found (the empty first IFD is skipped), and erasing
`DateTime` tags does not change resolution. -/
theorem c3_all_ifds_no_generic_datetime_witness :
    (resolveTimestamp 0 ⟨(some [[⟨"DateTime", .str "1999:01:01 00:00:00"⟩,
        ⟨"DateTimeOriginal", .str "2021:04:12 13:14:15"⟩]]).map eraseDateTime,
        none, ⟨2022, 1, 2, 3, 4, 5, 0⟩⟩ =
      resolveTimestamp 0 ⟨some [[⟨"DateTime", .str "1999:01:01 00:00:00"⟩,
        ⟨"DateTimeOriginal", .str "2021:04:12 13:14:15"⟩]],
        none, ⟨2022, 1, 2, 3, 4, 5, 0⟩⟩) ∧
    findTagInAllIfds ([[]] ++
        [[⟨"DateTimeOriginal", .str "2021:04:12 13:14:15"⟩]])
        "DateTimeOriginal" =
      findTagInAllIfds [[⟨"DateTimeOriginal", .str "2021:04:12 13:14:15"⟩]]
        "DateTimeOriginal" :=
  c3_all_ifds_no_generic_datetime 0
    (some [[⟨"DateTime", .str "1999:01:01 00:00:00"⟩,
      ⟨"DateTimeOriginal", .str "2021:04:12 13:14:15"⟩]])
    none ⟨2022, 1, 2, 3, 4, 5, 0⟩ [[]]
    [[⟨"DateTimeOriginal", .str "2021:04:12 13:14:15"⟩]] (by decide)

/-- A file whose metadata holds only a generic `DateTime` capture date
(no `DateTimeOriginal` in any IFD). -/
def genericDateTimeOnlyInput : FileInput :=
  ⟨some [[⟨"DateTime", .str "2021:04:12 13:14:15"⟩]], none,
    ⟨2022, 1, 2, 3, 4, 5, 0⟩⟩

/-- C3 counterexample: with `DateTimeOriginal` absent from every IFD, the
code does NOT search a generic `DateTime` tag — although one is present
with a valid capture date, resolution falls straight back to the
filesystem modification time. -/
theorem c3_counterexample :
    resolveTimestamp 0 genericDateTimeOnlyInput =
      .ok ⟨2022, 1, 2, 3, 4, 5, 0⟩ .filesystemMtime ∧
    resolveTimestamp 0 genericDateTimeOnlyInput ≠
      .ok ⟨2021, 4, 12, 13, 14, 15, 0⟩ .metadataLocal ∧
    lookupTag [⟨"DateTime", .str "2021:04:12 13:14:15"⟩] "DateTime" =
      some (.str "2021:04:12 13:14:15") := by
  decide

/-! ### Offset parsing (C4) and the malformed-offset fallback (C5) -/

theorem goParseInLocation_empty (localOff : Int) :
    goParseInLocation localOff "" = none := rfl

/-- A file carrying a capture date and a five-character `[+-]HHMM` offset
(`"+0200"`), the form the claim says is accepted. -/
def fiveCharOffsetInput : FileInput :=
  ⟨some [[⟨"DateTimeOriginal", .str "2021:04:12 13:14:15"⟩,
    ⟨"OffsetTimeOriginal", .str "+0200"⟩]], none, ⟨2022, 1, 2, 3, 4, 5, 0⟩⟩

/-- C4 counterexample: a well-signed five-character offset `"+0200"`
(`[+-]HHMM`) is NOT parsed together with the date — Go's `-07:00` layout
element demands exactly six characters with a colon — so resolution
ignores the offset and degrades to the local-timezone parse instead of
returning provenance `metadataWithOffset` with offset +02:00. -/
theorem c4_counterexample :
    resolveTimestamp 0 fiveCharOffsetInput ≠
      .ok ⟨2021, 4, 12, 13, 14, 15, 7200⟩ .metadataWithOffset ∧
    resolveTimestamp 0 fiveCharOffsetInput =
      .ok ⟨2021, 4, 12, 13, 14, 15, 0⟩ .metadataLocal := by
  decide

/-- C4 (amended): when the capture-date and offset strings are present
and their concatenation parses under the layout extended with `-07:00`
(which requires the offset to be exactly six characters `[+-]HH:MM`; the
five-character `[+-]HHMM` form never parses — see the counterexample),
and the combined value is not Go's zero time, resolution returns the
date-time combined with that offset, provenance `metadataWithOffset`. -/
theorem c4_offset_parsed_together (localOff : Int) (f : FileInput)
    (ds os : String) (t : GoTime)
    (hok : lookupStrings f.index = .ok ds os)
    (hds : ds ≠ "") (hos : os ≠ "")
    (hparse : goParseWithOffset (ds ++ os) = some t)
    (hz : t.isZero = false) :
    resolveTimestamp localOff f = .ok t .metadataWithOffset := by
  simp [resolveTimestamp, hok, hds, hos, hparse, hz, zeroTime_isZero]

/-- Witness for the amended C4: offset `"+02:00"` is combined with the
capture date (offset 7200 seconds). -/
theorem c4_offset_parsed_together_witness :
    resolveTimestamp 0 ⟨some [[⟨"DateTimeOriginal", .str "2021:04:12 13:14:15"⟩,
        ⟨"OffsetTimeOriginal", .str "+02:00"⟩]], none, ⟨2022, 1, 2, 3, 4, 5, 0⟩⟩ =
      .ok ⟨2021, 4, 12, 13, 14, 15, 7200⟩ .metadataWithOffset :=
  c4_offset_parsed_together 0
    ⟨some [[⟨"DateTimeOriginal", .str "2021:04:12 13:14:15"⟩,
      ⟨"OffsetTimeOriginal", .str "+02:00"⟩]], none, ⟨2022, 1, 2, 3, 4, 5, 0⟩⟩
    "2021:04:12 13:14:15" "+02:00" ⟨2021, 4, 12, 13, 14, 15, 7200⟩
    (by decide) (by decide) (by decide) (by decide) (by decide)

/-- A file whose capture date is the calendar origin `0001:01:01
00:00:00` and whose offset tag has a bad sign character. -/
def zeroDateBadOffsetInput : FileInput :=
  ⟨some [[⟨"DateTimeOriginal", .str "0001:01:01 00:00:00"⟩,
    ⟨"OffsetTimeOriginal", .str "!5:00"⟩]], none, ⟨2022, 1, 2, 3, 4, 5, 0⟩⟩

/-- C5 counterexample: a valid capture-date string with a malformed
offset does NOT always resolve to the local-timezone parse.  With a
zero-offset local zone, `"0001:01:01 00:00:00"` parses successfully to
Go's zero `time.Time`, the `IsZero` sentinel mistakes it for "unset",
and resolution falls back to the filesystem modification time. -/
theorem c5_counterexample :
    resolveTimestamp 0 zeroDateBadOffsetInput =
      .ok ⟨2022, 1, 2, 3, 4, 5, 0⟩ .filesystemMtime ∧
    goParseInLocation 0 "0001:01:01 00:00:00" = some ⟨1, 1, 1, 0, 0, 0, 0⟩ ∧
    resolveTimestamp 0 zeroDateBadOffsetInput ≠
      .ok ⟨1, 1, 1, 0, 0, 0, 0⟩ .metadataLocal := by
  decide

/-- C5 (amended): when the capture-date string is present, the offset
string is present but the combined parse fails (e.g. a bad sign
character), and the local-timezone parse succeeds with a value other
than Go's zero time (the zero value trips the `IsZero` sentinel and
falls through to modification time — see the counterexample), resolution
returns the locally parsed capture date, provenance `metadataLocal`, and
does not fall back to the filesystem modification time. -/
theorem c5_malformed_offset_local_parse (localOff : Int) (f : FileInput)
    (ds os : String) (t : GoTime)
    (hok : lookupStrings f.index = .ok ds os)
    (hos : os ≠ "")
    (hoff : goParseWithOffset (ds ++ os) = none)
    (hloc : goParseInLocation localOff ds = some t)
    (hz : t.isZero = false) :
    resolveTimestamp localOff f = .ok t .metadataLocal := by
  have hds : ds ≠ "" := by
    intro hd
    subst hd
    rw [goParseInLocation_empty] at hloc
    exact absurd hloc (by simp)
  simp [resolveTimestamp, hok, hds, hos, hoff, hloc, hz, zeroTime_isZero]

/-- Witness for the amended C5: bad sign `"!5:00"` with capture date
2021-04-12, local zone +01:00. -/
theorem c5_malformed_offset_local_parse_witness :
    resolveTimestamp 3600 ⟨some [[⟨"DateTimeOriginal", .str "2021:04:12 13:14:15"⟩,
        ⟨"OffsetTimeOriginal", .str "!5:00"⟩]], none, ⟨2022, 1, 2, 3, 4, 5, 0⟩⟩ =
      .ok ⟨2021, 4, 12, 13, 14, 15, 3600⟩ .metadataLocal :=
  c5_malformed_offset_local_parse 3600
    ⟨some [[⟨"DateTimeOriginal", .str "2021:04:12 13:14:15"⟩,
      ⟨"OffsetTimeOriginal", .str "!5:00"⟩]], none, ⟨2022, 1, 2, 3, 4, 5, 0⟩⟩
    "2021:04:12 13:14:15" "!5:00" ⟨2021, 4, 12, 13, 14, 15, 3600⟩
    (by decide) (by decide) (by decide) (by decide) (by decide)

/-! ### The bounded pool (C7) -/

/-- C7: in every reachable state of the dispatch loop at most
`maxGoroutines = 10` workers are in flight (`running`), and in fact at
most 10 slots are occupied at all (`held + running`, a slot being taken
before the goroutine starts and freed only at completion); tasks are
conserved; and whenever the WaitGroup counter has reached zero — the
condition under which `wg.Wait()` lets the run return — no worker is
running or pending-on-a-slot any more: every dispatched worker has
completed. -/
theorem c7_bounded_pool_and_join (n : Nat) (s : PoolState)
    (h : PoolReachable n s) :
    s.running ≤ maxGoroutines ∧
    s.held + s.running ≤ maxGoroutines ∧
    s.pending + wgCount s + s.done = n ∧
    (wgCount s = 0 → s.running = 0 ∧ s.held = 0 ∧ s.pending + s.done = n) := by
  have key : s.held + s.running ≤ maxGoroutines ∧
      s.pending + (s.held + s.running + s.released) + s.done = n := by
    induction h with
    | init => simp [initPool, maxGoroutines]
    | step hr hstep ih =>
      cases hstep <;> (simp only [maxGoroutines] at *; omega)
  simp only [wgCount, maxGoroutines] at *
  omega

/-- Witness for C7: the one-candidate run dispatch → start → free slot →
`wg.Done` reaches the all-done state, where the theorem's bounds hold. -/
theorem c7_bounded_pool_and_join_witness :
    (⟨0, 0, 0, 0, 1⟩ : PoolState).running ≤ maxGoroutines ∧
    (⟨0, 0, 0, 0, 1⟩ : PoolState).held + (⟨0, 0, 0, 0, 1⟩ : PoolState).running ≤
      maxGoroutines ∧
    (⟨0, 0, 0, 0, 1⟩ : PoolState).pending + wgCount ⟨0, 0, 0, 0, 1⟩ +
      (⟨0, 0, 0, 0, 1⟩ : PoolState).done = 1 ∧
    (wgCount ⟨0, 0, 0, 0, 1⟩ = 0 → (⟨0, 0, 0, 0, 1⟩ : PoolState).running = 0 ∧
      (⟨0, 0, 0, 0, 1⟩ : PoolState).held = 0 ∧
      (⟨0, 0, 0, 0, 1⟩ : PoolState).pending +
        (⟨0, 0, 0, 0, 1⟩ : PoolState).done = 1) := by
  have h0 : PoolReachable 1 (initPool 1) := PoolReachable.init
  have h1 : PoolReachable 1 ⟨0, 1, 0, 0, 0⟩ :=
    PoolReachable.step h0 (PoolStep.dispatch ⟨1, 0, 0, 0, 0⟩ (by decide) (by decide))
  have h2 : PoolReachable 1 ⟨0, 0, 1, 0, 0⟩ :=
    PoolReachable.step h1 (PoolStep.goStart ⟨0, 1, 0, 0, 0⟩ (by decide))
  have h3 : PoolReachable 1 ⟨0, 0, 0, 1, 0⟩ :=
    PoolReachable.step h2 (PoolStep.slotFree ⟨0, 0, 1, 0, 0⟩ (by decide))
  have h4 : PoolReachable 1 ⟨0, 0, 0, 0, 1⟩ :=
    PoolReachable.step h3 (PoolStep.wgDone ⟨0, 0, 0, 1, 0⟩ (by decide))
  exact c7_bounded_pool_and_join 1 _ h4

/-! ### The date-range filter (C9) -/

/-- C9: a worker reaches the file copier if and only if the 8-digit date
key of its resolved timestamp lies inside `[startD, endD]` (both bounds
inclusive: the code skips on `key < start || key > end`); a candidate
whose key falls outside the range ends as a silent skip, not an error. -/
theorem c9_range_filter (localOff : Int) (startD endD : Nat)
    (fromDir toDir name : String) (inp : FileInput) (now : GoTime)
    (fs : FSm) (t : GoTime) (p : Provenance) (sf : GoFile)
    (h1 : resolveTimestamp localOff inp = .ok t p)
    (h2 : fsGet fs (fromDir ++ "/" ++ name) = some sf) :
    (workerRun localOff startD endD fromDir toDir name inp now fs =
        .skippedRange ↔ (dateKey t < startD ∨ endD < dateKey t)) ∧
    ((startD ≤ dateKey t ∧ dateKey t ≤ endD) →
      (∃ fs2, workerRun localOff startD endD fromDir toDir name inp now fs =
        .copied (folderFor toDir t (extOf name) ++ "/" ++ name) fs2) ∨
      (∃ e, workerRun localOff startD endD fromDir toDir name inp now fs =
        .copyFailed e)) := by
  unfold workerRun
  simp only [h2, h1]
  by_cases hr : dateKey t < startD ∨ endD < dateKey t
  · rw [if_pos hr]
    exact ⟨by simp [hr], fun hin => absurd hin (by omega)⟩
  · rw [if_neg hr]
    cases hcf : copyFile (fromDir ++ "/" ++ name)
        (folderFor toDir t (extOf name) ++ "/" ++ name) now fs with
    | error e =>
      refine ⟨⟨fun hsk => ?_, fun hin => absurd hin hr⟩,
        fun _ => Or.inr ⟨e, rfl⟩⟩
      simp at hsk
    | ok fs2 =>
      refine ⟨⟨fun hsk => ?_, fun hin => absurd hin hr⟩,
        fun _ => Or.inl ⟨fs2, rfl⟩⟩
      simp at hsk

/-- Witness for C9 at a concrete in-range candidate (key 20220102 inside
[20220101, 20221231]) whose copy succeeds. -/
theorem c9_range_filter_witness :
    (workerRun 0 20220101 20221231 "src" "dst" "note.txt"
        ⟨none, none, ⟨2022, 1, 2, 3, 4, 5, 0⟩⟩ ⟨2023, 5, 6, 7, 8, 9, 0⟩
        [("src/note.txt", ⟨"N", ⟨2022, 1, 2, 3, 4, 5, 0⟩, true⟩)] =
        .skippedRange ↔
      (dateKey ⟨2022, 1, 2, 3, 4, 5, 0⟩ < 20220101 ∨
        20221231 < dateKey ⟨2022, 1, 2, 3, 4, 5, 0⟩)) ∧
    ((20220101 ≤ dateKey ⟨2022, 1, 2, 3, 4, 5, 0⟩ ∧
        dateKey ⟨2022, 1, 2, 3, 4, 5, 0⟩ ≤ 20221231) →
      (∃ fs2, workerRun 0 20220101 20221231 "src" "dst" "note.txt"
          ⟨none, none, ⟨2022, 1, 2, 3, 4, 5, 0⟩⟩ ⟨2023, 5, 6, 7, 8, 9, 0⟩
          [("src/note.txt", ⟨"N", ⟨2022, 1, 2, 3, 4, 5, 0⟩, true⟩)] =
        .copied (folderFor "dst" ⟨2022, 1, 2, 3, 4, 5, 0⟩ (extOf "note.txt") ++
          "/" ++ "note.txt") fs2) ∨
      (∃ e, workerRun 0 20220101 20221231 "src" "dst" "note.txt"
          ⟨none, none, ⟨2022, 1, 2, 3, 4, 5, 0⟩⟩ ⟨2023, 5, 6, 7, 8, 9, 0⟩
          [("src/note.txt", ⟨"N", ⟨2022, 1, 2, 3, 4, 5, 0⟩, true⟩)] =
        .copyFailed e)) :=
  c9_range_filter 0 20220101 20221231 "src" "dst" "note.txt"
    ⟨none, none, ⟨2022, 1, 2, 3, 4, 5, 0⟩⟩ ⟨2023, 5, 6, 7, 8, 9, 0⟩
    [("src/note.txt", ⟨"N", ⟨2022, 1, 2, 3, 4, 5, 0⟩, true⟩)]
    ⟨2022, 1, 2, 3, 4, 5, 0⟩ .filesystemMtime
    ⟨"N", ⟨2022, 1, 2, 3, 4, 5, 0⟩, true⟩ (by decide) (by decide)

/-! ### Extensionless files (C10) -/

theorem lastExtAux_eq_nil (cs : List Char) (h : '.' ∉ cs) :
    lastExtAux cs = [] := by
  induction cs with
  | nil => rfl
  | cons c rest ih =>
    have hc : ¬(c = '.') := fun hc => h (by rw [hc]; exact List.mem_cons_self _ _)
    simp only [lastExtAux, ih (fun hm => h (List.mem_cons_of_mem _ hm))]
    simp [hc]

/-- C10: a source file whose name contains no dot has the empty trimmed
extension, survives an unset extension filter, and its destination
subfolder name is the formatted date followed by a bare trailing hyphen. -/
theorem c10_extensionless_file (name toDir : String) (t : GoTime)
    (h : '.' ∉ name.data) :
    extOf name = "" ∧ passesFilter "" name = true ∧
    folderFor toDir t (extOf name) =
      toDir ++ "/" ++ (formatDate t ++ "-") := by
  have he : extOf name = "" := by
    unfold extOf filepathExt
    rw [lastExtAux_eq_nil name.data h]
    rfl
  refine ⟨he, by simp [passesFilter], ?_⟩
  rw [he]
  show toDir ++ "/" ++ (formatDate t ++ "-" ++ "") = _
  rw [String.append_empty]

/-- Witness for C10 at the dotless name `README`. -/
theorem c10_extensionless_file_witness :
    extOf "README" = "" ∧ passesFilter "" "README" = true ∧
    folderFor "dst" ⟨2021, 4, 12, 13, 14, 15, 0⟩ (extOf "README") =
      "dst" ++ "/" ++ (formatDate ⟨2021, 4, 12, 13, 14, 15, 0⟩ ++ "-") :=
  c10_extensionless_file "README" "dst" ⟨2021, 4, 12, 13, 14, 15, 0⟩
    (by decide)

end FileImporter
